import Mathlib

/-!
Verification of the vertical-resampling core of the VATSIM_EDST_API
repository (files `gridded_lib.py` and `blueprints/gridded_lib.py`).

The embedding models the two per-point interpolation pipelines:

* `interpolate_uv_at_flight_levels` (the U/V-only variant, `uvPointQ`,
  `uvCell`, `uvInterpolate`): per grid point it extracts the vertical
  profiles, rejects the point if any profile entry is NaN, reverses the
  profiles (`[::-1]`), applies `np.interp` against the reversed
  flight-level profile, and finally converts the whole 2D arrays with
  `astype(int)` (truncation toward zero; NaN becomes an int64 garbage
  value).

* `interpolate_uv_temp_at_flight_levels` (the temperature variant,
  `bpPointQ`, `bpCell`, `bpLevelOut`): additionally converts temperature
  from Kelvin to Celsius up front, rejects a point if any of the four
  profiles contains NaN (leaving the NaN-initialised output untouched),
  derives wind speed `sqrt(u^2+v^2)` and wind direction
  `(270 - degrees(atan2(v, u))) % 360`, and stores `int(round(...))` of
  each derived value (Python `round`, i.e. ties to even).

Floating-point numbers are modelled as exact rationals (`ℚ`), with `ℝ`
used for the transcendental speed/direction derivations; NaN is
modelled as `Option.none`.  `np.interp`'s length/emptiness `ValueError`
is modelled with `Except`.
-/

namespace Gridded

/-- A float value of a grid cell; `none` models NaN. -/
abbrev NpVal := Option ℚ

/-- A stack of 2D arrays, one per pressure level, as built by
`np.array([g.values for g in grbs])`: `nlev` levels over a
`rows × cols` grid.  `val k i j` is the value at level index `k`,
grid point `(i, j)`. -/
structure PLGrid where
  nlev : ℕ
  rows : ℕ
  cols : ℕ
  val : ℕ → ℕ → ℕ → NpVal

/-- The vertical profile `arr[:, i, j]` of one grid point, for an
in-range point (`i < rows`, `j < cols`).  numpy raises `IndexError`
on an out-of-range read; that error path is modelled by `profileOfE`
below, while the per-point lemmas stated through `profileOf` concern
points inside every grid's declared extent. -/
def profileOf (g : PLGrid) (i j : ℕ) : List NpVal :=
  (List.range g.nlev).map fun k => g.val k i j

/-- The profile read `arr[:, i, j]` with numpy's bounds semantics:
an `IndexError` is raised when `(i, j)` lies outside the array's
declared `rows × cols` extent. -/
def profileOfE (g : PLGrid) (i j : ℕ) : Except Unit (List NpVal) :=
  if i < g.rows ∧ j < g.cols then .ok (profileOf g i j) else .error ()

/-- `hgt * 3.281 / 100`: geopotential height (gpm) to flight level.
NaN propagates through arithmetic. -/
def hgtToFL (v : NpVal) : NpVal :=
  v.map fun h => h * (3281 / 1000) / 100

/-- `t - 273.15`: Kelvin to Celsius, applied to the whole 3D array
before the interpolation loop.  NaN propagates. -/
def kelvinToC (v : NpVal) : NpVal :=
  v.map fun t => t - 27315 / 100

/-- `np.any(np.isnan(profile))`. -/
def hasNaN (p : List NpVal) : Bool :=
  p.any fun v => v.isNone

/-- Extract the numeric values of a profile; only used on the branch
where `hasNaN` is false, so the default is never read. -/
def denan (p : List NpVal) : List ℚ :=
  p.map fun v => v.getD 0

/-- The reordering the source applies to every profile before
interpolation: the fixed reversal `profile[::-1]`. -/
def codeReorder (l : List ℚ) : List ℚ :=
  l.reverse

/-- Core of `np.interp` on the zipped `(xp, fp)` pairs, written for an
increasing `xp`: clamp to the first value below the range, clamp to the
last value above it, and interpolate linearly inside each interval. -/
def npInterpGo (x : ℚ) : List (ℚ × ℚ) → ℚ
  | [] => 0
  | p :: ps =>
    match ps with
    | [] => p.2
    | q :: _ =>
      if x < p.1 then p.2
      else if x ≤ q.1 then p.2 + (q.2 - p.2) * (x - p.1) / (q.1 - p.1)
      else npInterpGo x ps

/-- `np.interp(x, xp, fp)`: raises `ValueError` when `xp` and `fp`
have different lengths or `xp` is empty. -/
def npInterp (x : ℚ) (xp fp : List ℚ) : Except Unit ℚ :=
  if xp.length = fp.length ∧ xp ≠ [] then .ok (npInterpGo x (xp.zip fp)) else .error ()

/-- Inner-loop body of `interpolate_uv_at_flight_levels` for one grid
point `(i, j)` and one target flight level `fl`, before the final
`astype(int)` conversion: `none` is the NaN written when any profile
entry is NaN. -/
def uvPointQ (hg ug vg : PLGrid) (i j : ℕ) (fl : ℚ) : Except Unit (Option (ℚ × ℚ)) :=
  let pfl := (profileOf hg i j).map hgtToFL
  let pu := profileOf ug i j
  let pv := profileOf vg i j
  if hasNaN pfl || hasNaN pu || hasNaN pv then .ok none
  else
    match npInterp fl (codeReorder (denan pfl)) (codeReorder (denan pu)),
        npInterp fl (codeReorder (denan pfl)) (codeReorder (denan pv)) with
    | .ok u, .ok v => .ok (some (u, v))
    | .error e, _ => .error e
    | _, .error e => .error e

/-- C-style truncation toward zero, the behaviour of
`ndarray.astype(int)` on finite values. -/
def qTrunc (x : ℚ) : ℤ :=
  if 0 ≤ x then ⌊x⌋ else ⌈x⌉

/-- `astype(int)` applied to NaN: the cast is undefined in numpy and
yields the int64 sentinel `-2^63` on x86-64 (with a RuntimeWarning).
The claims only need that the result is an ordinary integer rather
than a missing-value marker. -/
def intCastOfNaN : ℤ := -(2 ^ 63)

/-- `astype(int)` on one cell. -/
def astypeInt (v : NpVal) : ℤ :=
  match v with
  | some q => qTrunc q
  | none => intCastOfNaN

/-- One output cell of `interpolate_uv_at_flight_levels` after the
final `u_interp.astype(int)` / `v_interp.astype(int)` conversion. -/
def uvCell (hg ug vg : PLGrid) (i j : ℕ) (fl : ℚ) : Except Unit (ℤ × ℤ) :=
  (uvPointQ hg ug vg i j fl).map fun o =>
    (astypeInt (o.map Prod.fst), astypeInt (o.map Prod.snd))

/-- Effectful map over a list in `Except`, mirroring a Python loop in
which the first raised exception aborts the whole computation. -/
def mapME (f : α → Except Unit β) : List α → Except Unit (List β)
  | [] => .ok []
  | a :: l =>
    match f a with
    | .error e => .error e
    | .ok b =>
      match mapME f l with
      | .error e => .error e
      | .ok bs => .ok (b :: bs)

/-- The hard-coded target ladder `np.arange(0, 510, 10)`. -/
def flTargets : List ℚ :=
  (List.range 51).map fun k => 10 * (k : ℚ)

/-- The full 2D cell array of the U/V variant at one target level. -/
def uvLevelCells (hg ug vg : PLGrid) (fl : ℚ) : Except Unit (List (List (ℤ × ℤ))) :=
  mapME (fun i => mapME (fun j => uvCell hg ug vg i j fl) (List.range hg.cols))
    (List.range hg.rows)

/-- `interpolate_uv_at_flight_levels`: for every target flight level a
dictionary mapping the field names to nested integer lists, keyed by
`int(fl)`.  The grid extent is taken from the height grid (`lats`). -/
def uvInterpolate (hg ug vg : PLGrid) :
    Except Unit (List (ℤ × List (String × List (List ℤ)))) :=
  mapME (fun fl =>
    (uvLevelCells hg ug vg fl).map fun cells =>
      (qTrunc fl,
        [("u", cells.map fun row => row.map Prod.fst),
         ("v", cells.map fun row => row.map Prod.snd)]))
    flTargets

/-- Inner-loop body of `interpolate_uv_at_flight_levels` with numpy's
index-bounds error path: the source reads `fl_3d[:, i, j]`,
`u_3d[:, i, j]` and `v_3d[:, i, j]` in that order before anything
else, and each read raises an uncaught `IndexError` when `(i, j)`
lies outside that array's extent; inside all three extents the body
is exactly `uvPointQ`. -/
def uvPointE (hg ug vg : PLGrid) (i j : ℕ) (fl : ℚ) : Except Unit (Option (ℚ × ℚ)) :=
  if i < hg.rows ∧ j < hg.cols then
    if i < ug.rows ∧ j < ug.cols then
      if i < vg.rows ∧ j < vg.cols then uvPointQ hg ug vg i j fl
      else .error ()
    else .error ()
  else .error ()

/-- One output cell of the U/V variant with the index-bounds error
path included. -/
def uvCellE (hg ug vg : PLGrid) (i j : ℕ) (fl : ℚ) : Except Unit (ℤ × ℤ) :=
  (uvPointE hg ug vg i j fl).map fun o =>
    (astypeInt (o.map Prod.fst), astypeInt (o.map Prod.snd))

/-- The full 2D cell array at one target level, looping over the
height grid's extent (`lats.shape`), with the index-bounds error
path: an `IndexError` at any point aborts the whole loop. -/
def uvLevelCellsE (hg ug vg : PLGrid) (fl : ℚ) : Except Unit (List (List (ℤ × ℤ))) :=
  mapME (fun i => mapME (fun j => uvCellE hg ug vg i j fl) (List.range hg.cols))
    (List.range hg.rows)

/-- `interpolate_uv_at_flight_levels` over the whole grid with numpy's
index-bounds error path: identical to `uvInterpolate` wherever every
profile read stays inside the U and V grids' extents, and an uncaught
`IndexError` (aborting the whole call) where the height grid's extent
exceeds them. -/
def uvInterpolateE (hg ug vg : PLGrid) :
    Except Unit (List (ℤ × List (String × List (List ℤ)))) :=
  mapME (fun fl =>
    (uvLevelCellsE hg ug vg fl).map fun cells =>
      (qTrunc fl,
        [("u", cells.map fun row => row.map Prod.fst),
         ("v", cells.map fun row => row.map Prod.snd)]))
    flTargets

/-- Inner-loop body of `interpolate_uv_temp_at_flight_levels` for one
grid point and target level, up to the exact rational quantities
`(u_val, v_val, t_val)`; `none` models the `continue` that leaves the
NaN-initialised output untouched. -/
def bpPointQ (hg ug vg tg : PLGrid) (i j : ℕ) (fl : ℚ) :
    Except Unit (Option (ℚ × ℚ × ℚ)) :=
  let pfl := (profileOf hg i j).map hgtToFL
  let pu := profileOf ug i j
  let pv := profileOf vg i j
  let pt := (profileOf tg i j).map kelvinToC
  if hasNaN pfl || hasNaN pu || hasNaN pv || hasNaN pt then .ok none
  else
    match npInterp fl (codeReorder (denan pfl)) (codeReorder (denan pu)),
        npInterp fl (codeReorder (denan pfl)) (codeReorder (denan pv)),
        npInterp fl (codeReorder (denan pfl)) (codeReorder (denan pt)) with
    | .ok u, .ok v, .ok t => .ok (some (u, v, t))
    | .error e, _, _ => .error e
    | _, .error e, _ => .error e
    | _, _, .error e => .error e

/-- `np.arctan2 y x` for real arguments (C `atan2` semantics). -/
noncomputable def atan2 (y x : ℝ) : ℝ :=
  if 0 < x then Real.arctan (y / x)
  else if x < 0 then
    (if 0 ≤ y then Real.arctan (y / x) + Real.pi else Real.arctan (y / x) - Real.pi)
  else
    (if 0 < y then Real.pi / 2 else if y < 0 then -(Real.pi / 2) else 0)

/-- Python's float modulo `x % y`: the representative of `x` modulo `y`
in `[0, y)` for positive `y`. -/
noncomputable def rmod (x y : ℝ) : ℝ :=
  x - y * ⌊x / y⌋

/-- `np.sqrt(u_val**2 + v_val**2)`. -/
noncomputable def windSpeed (u v : ℚ) : ℝ :=
  Real.sqrt ((u : ℝ) ^ 2 + (v : ℝ) ^ 2)

/-- `(270 - np.degrees(np.arctan2(v_val, u_val))) % 360`. -/
noncomputable def windDir (u v : ℚ) : ℝ :=
  rmod (270 - 180 / Real.pi * atan2 (v : ℝ) (u : ℝ)) 360

/-- Python's built-in `round` on an exact rational: round to nearest,
ties to even. -/
def pyRound (x : ℚ) : ℤ :=
  if x - ⌊x⌋ < 1 / 2 then ⌊x⌋
  else if 1 / 2 < x - ⌊x⌋ then ⌊x⌋ + 1
  else if ⌊x⌋ % 2 = 0 then ⌊x⌋ else ⌊x⌋ + 1

/-- Python's built-in `round` on a real value: round to nearest, ties
to even. -/
noncomputable def pyRoundR (x : ℝ) : ℤ :=
  if x - ⌊x⌋ < 1 / 2 then ⌊x⌋
  else if 1 / 2 < x - ⌊x⌋ then ⌊x⌋ + 1
  else if ⌊x⌋ % 2 = 0 then ⌊x⌋ else ⌊x⌋ + 1

/-- The `int(round(...))` storage step of the temperature variant:
`(temp, speed, dir)` for an accepted point, `none` for a skipped one. -/
noncomputable def bpRound (r : Option (ℚ × ℚ × ℚ)) : Option (ℤ × ℤ × ℤ) :=
  r.map fun p => (pyRound p.2.2, pyRoundR (windSpeed p.1 p.2.1), pyRoundR (windDir p.1 p.2.1))

/-- One output cell of `interpolate_uv_temp_at_flight_levels`:
`(temp, speed, dir)` as stored in `temp_2d` / `speed_2d` / `dir_2d`,
or `none` where the arrays keep their NaN initialisation. -/
noncomputable def bpCell (hg ug vg tg : PLGrid) (i j : ℕ) (fl : ℚ) :
    Except Unit (Option (ℤ × ℤ × ℤ)) :=
  (bpPointQ hg ug vg tg i j fl).map bpRound

/-- The full 2D cell array of the temperature variant at one level. -/
noncomputable def bpCells (hg ug vg tg : PLGrid) (fl : ℚ) :
    Except Unit (List (List (Option (ℤ × ℤ × ℤ)))) :=
  mapME (fun i => mapME (fun j => bpCell hg ug vg tg i j fl) (List.range hg.cols))
    (List.range hg.rows)

/-- Per target level, the three CSV outputs of the temperature
variant in the order they are written (`FLxxx-Temp.csv`,
`FLxxx-Dir.csv`, `FLxxx-Spd.csv`); a NaN cell is written as the empty
field, modelled `none`. -/
noncomputable def bpLevelOut (hg ug vg tg : PLGrid) (fl : ℚ) :
    Except Unit (List (String × List (List (Option ℤ)))) :=
  (bpCells hg ug vg tg fl).map fun cells =>
    [("Temp", cells.map fun row => row.map (Option.map fun p => p.1)),
     ("Dir", cells.map fun row => row.map (Option.map fun p => p.2.2)),
     ("Spd", cells.map fun row => row.map (Option.map fun p => p.2.1))]

/-- Strictly increasing list, the ordering the spec requires of the
reordered flight-level profile. -/
def strictIncr (l : List ℚ) : Prop :=
  List.Chain' (· < ·) l

/-- Executable test for a strictly decreasing rational list. -/
def strictDecrB : List ℚ → Bool
  | [] => true
  | a :: l =>
    match l with
    | [] => true
    | b :: _ => (decide (b < a)) && strictDecrB l

/-- Modelled from the spec: rounding to the nearest integer with ties
away from zero, the rounding mode the spec prescribes for all output
values. -/
def specRoundHalfAway (x : ℚ) : ℤ :=
  if 0 ≤ x then ⌊x + 1 / 2⌋ else -⌊-x + 1 / 2⌋

/-- Modelled from the spec: the wind-direction formula
`(270 - atan2(v, u) in degrees) mod 360`. -/
noncomputable def specWindDir (u v : ℚ) : ℝ :=
  rmod (270 - 180 / Real.pi * atan2 (v : ℝ) (u : ℝ)) 360

/-- `Except.isOk`. -/
def isOkE (e : Except Unit α) : Bool :=
  match e with
  | .ok _ => true
  | .error _ => false

/-- Value of an `Except`, with a default for the error case. -/
def okD (e : Except Unit α) (d : α) : α :=
  match e with
  | .ok a => a
  | .error _ => d

instance {α : Type _} [DecidableEq α] : DecidableEq (Except Unit α) := fun a b =>
  match a, b with
  | .ok x, .ok y =>
    if h : x = y then .isTrue (by rw [h]) else .isFalse fun hc => h (Except.ok.inj hc)
  | .ok _, .error _ => .isFalse fun hc => Except.noConfusion hc
  | .error _, .ok _ => .isFalse fun hc => Except.noConfusion hc
  | .error x, .error y => .isTrue (by cases x; cases y; rfl)

/-! Concrete input grids used by the closed theorems and witnesses. -/

/-- Height grid with a NaN at point `(0, 0)` and a finite height at
`(0, 1)`: one pressure level over a `1 × 2` grid. -/
def gh1 : PLGrid := ⟨1, 1, 2, fun _ _ j => if j = 0 then none else some 5000⟩

/-- The same height grid with the NaN replaced by a finite value. -/
def gh1c : PLGrid := ⟨1, 1, 2, fun _ _ _ => some 5000⟩

/-- Constant U grid over the `1 × 2` extent. -/
def gu1 : PLGrid := ⟨1, 1, 2, fun _ _ _ => some 10⟩

/-- Constant V grid over the `1 × 2` extent. -/
def gv1 : PLGrid := ⟨1, 1, 2, fun _ _ _ => some 10⟩

/-- Constant Kelvin temperature grid over the `1 × 2` extent. -/
def gt1 : PLGrid := ⟨1, 1, 2, fun _ _ _ => some (27315 / 100)⟩

/-- `1 × 1` height grid, one level. -/
def gh2 : PLGrid := ⟨1, 1, 1, fun _ _ _ => some 5000⟩

/-- `1 × 2 × 2` U grid whose 2D extent disagrees with `gh2`. -/
def gu2 : PLGrid := ⟨1, 2, 2, fun _ _ _ => some 10⟩

/-- `1 × 2 × 2` V grid whose 2D extent disagrees with `gh2`. -/
def gv2 : PLGrid := ⟨1, 2, 2, fun _ _ _ => some 10⟩

/-- `1 × 2 × 2` height grid, larger than the `1 × 1` U/V grids below. -/
def ghB : PLGrid := ⟨1, 2, 2, fun _ _ _ => some 5000⟩

/-- `1 × 1 × 1` U grid, smaller than the height grid `ghB`. -/
def guS : PLGrid := ⟨1, 1, 1, fun _ _ _ => some 10⟩

/-- `1 × 1 × 1` V grid, smaller than the height grid `ghB`. -/
def gvS : PLGrid := ⟨1, 1, 1, fun _ _ _ => some 10⟩

/-- Constant U/V grid holding `1.9` on a single level. -/
def gw19 : PLGrid := ⟨1, 1, 1, fun _ _ _ => some (19 / 10)⟩

/-- Constant U grid holding `2.5` on a single level. -/
def gw25 : PLGrid := ⟨1, 1, 1, fun _ _ _ => some (5 / 2)⟩

/-- Constant zero grid on a single level. -/
def gzero : PLGrid := ⟨1, 1, 1, fun _ _ _ => some 0⟩

/-- Constant Kelvin temperature grid holding `273.15` (0 °C). -/
def gK0 : PLGrid := ⟨1, 1, 1, fun _ _ _ => some (27315 / 100)⟩

/-- Constant U grid holding `1` on a single level. -/
def gone : PLGrid := ⟨1, 1, 1, fun _ _ _ => some 1⟩

/-- Constant V grid holding `-200` on a single level. -/
def gm200 : PLGrid := ⟨1, 1, 1, fun _ _ _ => some (-200)⟩

/-- Three-level height grid whose heights convert exactly to the
flight levels `250, 150, 50` in storage order (the conventional
top-down pressure-level ordering the source assumes). -/
def gh4 : PLGrid :=
  ⟨3, 1, 1, fun k _ _ =>
    if k = 0 then some (25000000 / 3281)
    else if k = 1 then some (15000000 / 3281)
    else some (5000000 / 3281)⟩

/-- Three-level U grid holding `30, 20, 10` in storage order, i.e.
`10, 20, 30` at flight levels `50, 150, 250`. -/
def gu4 : PLGrid :=
  ⟨3, 1, 1, fun k _ _ => if k = 0 then some 30 else if k = 1 then some 20 else some 10⟩

/-- Three-level zero V grid. -/
def gv4 : PLGrid := ⟨3, 1, 1, fun _ _ _ => some 0⟩

/-- Three-level constant Kelvin temperature grid (0 °C). -/
def gt4 : PLGrid := ⟨3, 1, 1, fun _ _ _ => some (27315 / 100)⟩

/-- All-NaN single-level `1 × 1` grid. -/
def gnan : PLGrid := ⟨1, 1, 1, fun _ _ _ => none⟩

/-- The concrete output of the U/V variant on the all-NaN grids,
extracted from the computation itself. -/
def c8uvout : List (ℤ × List (String × List (List ℤ))) :=
  okD (uvInterpolate gnan gnan gnan) []

/-- The concrete per-level output of the temperature variant on the
all-NaN grids, extracted from the computation itself. -/
noncomputable def c8bpout : List (String × List (List (Option ℤ))) :=
  okD (bpLevelOut gnan gnan gnan gnan 0) []

end Gridded

namespace Gridded

/-! Helper lemmas about the effectful list map. -/

theorem mapME_ok_length {f : α → Except Unit β} :
    ∀ {l : List α} {res : List β}, mapME f l = .ok res → res.length = l.length := by
  intro l
  induction l with
  | nil =>
    intro res h
    simp only [mapME, Except.ok.injEq] at h
    simp [← h]
  | cons a l ih =>
    intro res h
    simp only [mapME] at h
    cases hfa : f a with
    | error e => rw [hfa] at h; exact absurd h (by simp)
    | ok b =>
      rw [hfa] at h
      cases hrec : mapME f l with
      | error e => rw [hrec] at h; exact absurd h (by simp)
      | ok bs =>
        rw [hrec] at h
        simp only [Except.ok.injEq] at h
        subst h
        simp [ih hrec]

theorem mapME_ok_mem {f : α → Except Unit β} :
    ∀ {l : List α} {res : List β}, mapME f l = .ok res →
      ∀ b ∈ res, ∃ a ∈ l, f a = .ok b := by
  intro l
  induction l with
  | nil =>
    intro res h
    simp only [mapME, Except.ok.injEq] at h
    simp [← h]
  | cons a l ih =>
    intro res h
    simp only [mapME] at h
    cases hfa : f a with
    | error e => rw [hfa] at h; exact absurd h (by simp)
    | ok b =>
      rw [hfa] at h
      cases hrec : mapME f l with
      | error e => rw [hrec] at h; exact absurd h (by simp)
      | ok bs =>
        rw [hrec] at h
        simp only [Except.ok.injEq] at h
        subst h
        intro c hc
        rcases List.mem_cons.mp hc with hc | hc
        · exact ⟨a, List.mem_cons_self a l, by rw [hfa, hc]⟩
        · rcases ih hrec c hc with ⟨a', ha', hfa'⟩
          exact ⟨a', List.mem_cons_of_mem a ha', hfa'⟩

theorem isOkE_map {g : α → β} {e : Except Unit α} :
    isOkE (Except.map g e) = isOkE e := by
  cases e <;> rfl

theorem mapME_isOkE {f : α → Except Unit β} :
    ∀ {l : List α}, (∀ a ∈ l, isOkE (f a) = true) → isOkE (mapME f l) = true := by
  intro l
  induction l with
  | nil => intro _; rfl
  | cons a l ih =>
    intro h
    simp only [mapME]
    cases hfa : f a with
    | error e =>
      have := h a (List.mem_cons_self a l)
      rw [hfa] at this
      simp [isOkE] at this
    | ok b =>
      cases hrec : mapME f l with
      | error e =>
        have := ih fun a' ha' => h a' (List.mem_cons_of_mem a ha')
        rw [hrec] at this
        simp [isOkE] at this
      | ok bs => simp [hrec, isOkE]

/-! Helper lemmas about `npInterpGo`: boundary clamping on a profile
with strictly increasing abscissas, and commutation with a constant
shift of the ordinates. -/

theorem chain_head_le_last :
    ∀ (l : List (ℚ × ℚ)), List.Chain' (fun a b : ℚ × ℚ => a.1 < b.1) l →
      (l.headD (0, 0)).1 ≤ (l.getLastD (0, 0)).1
  | [], _ => le_refl _
  | [p], _ => le_refl _
  | p :: q :: rest, hch => by
    rcases List.chain'_cons.mp hch with ⟨hpq, hch'⟩
    have ih := chain_head_le_last (q :: rest) hch'
    simp only [List.headD_cons] at ih ⊢
    rw [List.getLastD_cons, List.getLastD_cons]
    rw [List.getLastD_cons] at ih
    exact le_trans (le_of_lt hpq) ih

theorem npInterpGo_left (x : ℚ) :
    ∀ (l : List (ℚ × ℚ)), l ≠ [] →
      List.Chain' (fun a b : ℚ × ℚ => a.1 < b.1) l →
      x ≤ (l.headD (0, 0)).1 → npInterpGo x l = (l.headD (0, 0)).2
  | [], h, _, _ => absurd rfl h
  | [p], _, _, _ => by simp [npInterpGo]
  | p :: q :: rest, _, hch, hx => by
    rcases List.chain'_cons.mp hch with ⟨hpq, _⟩
    simp only [List.headD_cons] at hx ⊢
    rw [npInterpGo]
    rcases lt_or_eq_of_le hx with hlt | heq
    · rw [if_pos hlt]
    · rw [if_neg (by rw [heq]; exact lt_irrefl _), if_pos (heq ▸ le_of_lt hpq)]
      rw [← heq, sub_self, mul_zero, zero_div, add_zero]

theorem getLastD_irrel {γ : Type} :
    ∀ (l : List γ), l ≠ [] → ∀ (d d' : γ), l.getLastD d = l.getLastD d'
  | [], h, _, _ => absurd rfl h
  | a :: l, _, d, d' => by rw [List.getLastD_cons, List.getLastD_cons]

theorem npInterpGo_right (x : ℚ) :
    ∀ (l : List (ℚ × ℚ)), l ≠ [] →
      List.Chain' (fun a b : ℚ × ℚ => a.1 < b.1) l →
      (l.getLastD (0, 0)).1 ≤ x → npInterpGo x l = (l.getLastD (0, 0)).2
  | [], h, _, _ => absurd rfl h
  | [p], _, _, _ => by simp [npInterpGo]
  | p :: q :: rest, _, hch, hx => by
    rcases List.chain'_cons.mp hch with ⟨hpq, hch'⟩
    have hdrop : (p :: q :: rest).getLastD (0, 0) = (q :: rest).getLastD (0, 0) := by
      rw [List.getLastD_cons]
      exact getLastD_irrel (q :: rest) (by simp) p (0, 0)
    rw [hdrop] at hx ⊢
    have hqL : q.1 ≤ ((q :: rest).getLastD (0, 0)).1 := by
      simpa using chain_head_le_last (q :: rest) hch'
    have hpx : p.1 < x := lt_of_lt_of_le hpq (le_trans hqL hx)
    rw [npInterpGo, if_neg (not_lt.mpr (le_of_lt hpx))]
    cases rest with
    | nil =>
      have hLq : ((q :: []).getLastD ((0 : ℚ), (0 : ℚ))) = q := by
        rw [List.getLastD_cons, List.getLastD_nil]
      rw [hLq] at hx ⊢
      by_cases hxq : x ≤ q.1
      · have hxe : x = q.1 := le_antisymm hxq hx
        rw [if_pos hxq, hxe]
        have hne : q.1 - p.1 ≠ 0 := sub_ne_zero.mpr (ne_of_gt hpq)
        field_simp
      · rw [if_neg hxq]
        simp [npInterpGo]
    | cons r rest' =>
      have hLr : (q :: r :: rest').getLastD (0, 0) = (r :: rest').getLastD (0, 0) := by
        rw [List.getLastD_cons]
        exact getLastD_irrel (r :: rest') (by simp) q (0, 0)
      have hqr : q.1 < r.1 := (List.chain'_cons.mp hch').1
      have hrL : r.1 ≤ ((r :: rest').getLastD (0, 0)).1 := by
        simpa using chain_head_le_last (r :: rest') (List.chain'_cons.mp hch').2
      have hqx : q.1 < x := by
        rw [hLr] at hx
        exact lt_of_lt_of_le (lt_of_lt_of_le hqr hrL) hx
      rw [if_neg (not_le.mpr hqx)]
      exact npInterpGo_right x (q :: r :: rest') (by simp) hch' hx

/-- `npInterpGo` commutes with a constant shift of the ordinates
(applied to a nonempty profile). -/
theorem npInterpGo_shift (x c : ℚ) :
    ∀ (l : List (ℚ × ℚ)), l ≠ [] →
      npInterpGo x (l.map fun p => (p.1, p.2 - c)) = npInterpGo x l - c
  | [], h => absurd rfl h
  | [p], _ => by simp [npInterpGo]
  | p :: q :: rest, _ => by
    have ih := npInterpGo_shift x c (q :: rest) (by simp)
    simp only [List.map_cons]
    rw [npInterpGo, npInterpGo]
    by_cases h1 : x < p.1
    · simp [h1]
    · rw [if_neg h1, if_neg h1]
      by_cases h2 : x ≤ q.1
      · simp only [if_pos h2]
        ring
      · rw [if_neg h2, if_neg h2]
        simpa using ih

/-! Lifting the clamp lemmas to `npInterp` on separate abscissa and
ordinate lists. -/

theorem zip_headD {xp fp : List ℚ} (hxp : xp ≠ []) (hfp : fp ≠ []) :
    (xp.zip fp).headD (0, 0) = (xp.headD 0, fp.headD 0) := by
  cases xp with
  | nil => exact absurd rfl hxp
  | cons a xs =>
    cases fp with
    | nil => exact absurd rfl hfp
    | cons b ys => rfl

theorem zip_getLastD :
    ∀ {xp fp : List ℚ}, xp.length = fp.length → xp ≠ [] →
      (xp.zip fp).getLastD (0, 0) = (xp.getLastD 0, fp.getLastD 0) := by
  intro xp
  induction xp with
  | nil => intro fp _ h; exact absurd rfl h
  | cons a xs ih =>
    intro fp hlen hne
    cases fp with
    | nil => simp at hlen
    | cons b ys =>
      simp only [List.length_cons, Nat.succ.injEq] at hlen
      cases xs with
      | nil =>
        have : ys = [] := List.length_eq_zero.mp hlen.symm ▸ rfl
        subst this
        rfl
      | cons a' xs' =>
        cases ys with
        | nil => simp at hlen
        | cons b' ys' =>
          have h1 : ((a :: a' :: xs').zip (b :: b' :: ys')).getLastD (0, 0)
              = ((a' :: xs').zip (b' :: ys')).getLastD (0, 0) := by
            rw [List.zip_cons_cons, List.getLastD_cons]
            exact getLastD_irrel _ (by simp [List.zip_cons_cons]) _ _
          have h2 : (a :: a' :: xs').getLastD (0 : ℚ) = (a' :: xs').getLastD (0 : ℚ) := by
            rw [List.getLastD_cons]
            exact getLastD_irrel _ (by simp) _ _
          have h3 : (b :: b' :: ys').getLastD (0 : ℚ) = (b' :: ys').getLastD (0 : ℚ) := by
            rw [List.getLastD_cons]
            exact getLastD_irrel _ (by simp) _ _
          rw [h1, h2, h3]
          exact ih hlen (by simp)

theorem chain_zip {xp fp : List ℚ} (hlen : xp.length = fp.length)
    (h : List.Chain' (· < ·) xp) :
    List.Chain' (fun a b : ℚ × ℚ => a.1 < b.1) (xp.zip fp) := by
  have hmap : (xp.zip fp).map Prod.fst = xp :=
    List.map_fst_zip xp fp (le_of_eq hlen)
  have := (List.chain'_map (Prod.fst : ℚ × ℚ → ℚ)).mp (hmap ▸ h)
  exact this

theorem zip_ne_nil {xp fp : List ℚ} (hxp : xp ≠ []) (hfp : fp ≠ []) :
    xp.zip fp ≠ [] := by
  cases xp with
  | nil => exact absurd rfl hxp
  | cons a xs =>
    cases fp with
    | nil => exact absurd rfl hfp
    | cons b ys => simp [List.zip_cons_cons]

theorem npInterp_ok (x : ℚ) (xp fp : List ℚ) (hlen : xp.length = fp.length)
    (hne : xp ≠ []) : npInterp x xp fp = .ok (npInterpGo x (xp.zip fp)) := by
  rw [npInterp, if_pos ⟨hlen, hne⟩]

theorem interpPair_left (x : ℚ) (xp fp : List ℚ) (hlen : xp.length = fp.length)
    (hne : xp ≠ []) (hs : List.Chain' (· < ·) xp) (hx : x ≤ xp.headD 0) :
    npInterpGo x (xp.zip fp) = fp.headD 0 := by
  have hfne : fp ≠ [] := by
    intro h
    subst h
    exact hne (List.length_eq_zero.mp (by simpa using hlen))
  have := npInterpGo_left x (xp.zip fp) (zip_ne_nil hne hfne) (chain_zip hlen hs)
    (by rw [zip_headD hne hfne]; exact hx)
  rw [zip_headD hne hfne] at this
  exact this

theorem interpPair_right (x : ℚ) (xp fp : List ℚ) (hlen : xp.length = fp.length)
    (hne : xp ≠ []) (hs : List.Chain' (· < ·) xp) (hx : xp.getLastD 0 ≤ x) :
    npInterpGo x (xp.zip fp) = fp.getLastD 0 := by
  have hfne : fp ≠ [] := by
    intro h
    subst h
    exact hne (List.length_eq_zero.mp (by simpa using hlen))
  have := npInterpGo_right x (xp.zip fp) (zip_ne_nil hne hfne) (chain_zip hlen hs)
    (by rw [zip_getLastD hlen hne]; exact hx)
  rw [zip_getLastD hlen hne] at this
  exact this

/-! Evaluating the per-point pipelines on complete profiles. -/

theorem length_profileOf (g : PLGrid) (i j : ℕ) : (profileOf g i j).length = g.nlev := by
  simp [profileOf]

theorem length_reorder_denan (p : List NpVal) :
    (codeReorder (denan p)).length = p.length := by
  simp [codeReorder, denan]

theorem reorder_denan_ne_nil {p : List NpVal} (h : p ≠ []) :
    codeReorder (denan p) ≠ [] := by
  intro hc
  have := congrArg List.length hc
  rw [length_reorder_denan] at this
  exact h (List.length_eq_zero.mp (by simpa using this))

theorem profileOf_ne_nil {g : PLGrid} (i j : ℕ) (h : 0 < g.nlev) :
    profileOf g i j ≠ [] := by
  intro hc
  have := congrArg List.length hc
  rw [length_profileOf] at this
  simp at this
  omega

theorem uvPointQ_eval (hg ug vg : PLGrid) (i j : ℕ) (fl : ℚ)
    (hfl : hasNaN ((profileOf hg i j).map hgtToFL) = false)
    (hu : hasNaN (profileOf ug i j) = false)
    (hv : hasNaN (profileOf vg i j) = false)
    (hlu : ug.nlev = hg.nlev) (hlv : vg.nlev = hg.nlev) (hpos : 0 < hg.nlev) :
    uvPointQ hg ug vg i j fl = .ok (some
      (npInterpGo fl ((codeReorder (denan ((profileOf hg i j).map hgtToFL))).zip
        (codeReorder (denan (profileOf ug i j)))),
       npInterpGo fl ((codeReorder (denan ((profileOf hg i j).map hgtToFL))).zip
        (codeReorder (denan (profileOf vg i j)))))) := by
  have hlen : ((profileOf hg i j).map hgtToFL).length = hg.nlev := by
    rw [List.length_map, length_profileOf]
  have hneq : codeReorder (denan ((profileOf hg i j).map hgtToFL)) ≠ [] := by
    apply reorder_denan_ne_nil
    intro hc
    have := congrArg List.length hc
    rw [hlen] at this
    simp at this
    omega
  have hlu' : (codeReorder (denan ((profileOf hg i j).map hgtToFL))).length
      = (codeReorder (denan (profileOf ug i j))).length := by
    rw [length_reorder_denan, length_reorder_denan, List.length_map,
      length_profileOf, length_profileOf, hlu]
  have hlv' : (codeReorder (denan ((profileOf hg i j).map hgtToFL))).length
      = (codeReorder (denan (profileOf vg i j))).length := by
    rw [length_reorder_denan, length_reorder_denan, List.length_map,
      length_profileOf, length_profileOf, hlv]
  simp only [uvPointQ, hfl, hu, hv, Bool.or_self, Bool.or_false, if_false,
    Bool.false_or]
  rw [npInterp_ok _ _ _ hlu' hneq, npInterp_ok _ _ _ hlv' hneq]
  rfl

theorem bpPointQ_eval (hg ug vg tg : PLGrid) (i j : ℕ) (fl : ℚ)
    (hfl : hasNaN ((profileOf hg i j).map hgtToFL) = false)
    (hu : hasNaN (profileOf ug i j) = false)
    (hv : hasNaN (profileOf vg i j) = false)
    (ht : hasNaN ((profileOf tg i j).map kelvinToC) = false)
    (hlu : ug.nlev = hg.nlev) (hlv : vg.nlev = hg.nlev) (hlt : tg.nlev = hg.nlev)
    (hpos : 0 < hg.nlev) :
    bpPointQ hg ug vg tg i j fl = .ok (some
      (npInterpGo fl ((codeReorder (denan ((profileOf hg i j).map hgtToFL))).zip
        (codeReorder (denan (profileOf ug i j)))),
       npInterpGo fl ((codeReorder (denan ((profileOf hg i j).map hgtToFL))).zip
        (codeReorder (denan (profileOf vg i j)))),
       npInterpGo fl ((codeReorder (denan ((profileOf hg i j).map hgtToFL))).zip
        (codeReorder (denan ((profileOf tg i j).map kelvinToC)))))) := by
  have hlen : ((profileOf hg i j).map hgtToFL).length = hg.nlev := by
    rw [List.length_map, length_profileOf]
  have hneq : codeReorder (denan ((profileOf hg i j).map hgtToFL)) ≠ [] := by
    apply reorder_denan_ne_nil
    intro hc
    have := congrArg List.length hc
    rw [hlen] at this
    simp at this
    omega
  have hlu' : (codeReorder (denan ((profileOf hg i j).map hgtToFL))).length
      = (codeReorder (denan (profileOf ug i j))).length := by
    rw [length_reorder_denan, length_reorder_denan, List.length_map,
      length_profileOf, length_profileOf, hlu]
  have hlv' : (codeReorder (denan ((profileOf hg i j).map hgtToFL))).length
      = (codeReorder (denan (profileOf vg i j))).length := by
    rw [length_reorder_denan, length_reorder_denan, List.length_map,
      length_profileOf, length_profileOf, hlv]
  have hlt' : (codeReorder (denan ((profileOf hg i j).map hgtToFL))).length
      = (codeReorder (denan ((profileOf tg i j).map kelvinToC))).length := by
    rw [length_reorder_denan, length_reorder_denan, List.length_map,
      List.length_map, length_profileOf, length_profileOf, hlt]
  simp only [bpPointQ, hfl, hu, hv, ht, Bool.or_self, Bool.or_false, if_false,
    Bool.false_or]
  rw [npInterp_ok _ _ _ hlu' hneq, npInterp_ok _ _ _ hlv' hneq,
    npInterp_ok _ _ _ hlt' hneq]
  rfl


/-! Real-valued helpers: Python float modulo, Python rounding, and
evaluations of the wind-speed and wind-direction formulas. -/

theorem rmod_nonneg_lt (x : ℝ) {y : ℝ} (hy : 0 < y) :
    0 ≤ rmod x y ∧ rmod x y < y := by
  unfold rmod
  constructor
  · have h1 : ((⌊x / y⌋ : ℤ) : ℝ) ≤ x / y := Int.floor_le _
    have h2 : y * ((⌊x / y⌋ : ℤ) : ℝ) ≤ y * (x / y) :=
      mul_le_mul_of_nonneg_left h1 (le_of_lt hy)
    have h3 : y * (x / y) = x := by field_simp
    linarith
  · have h1 : x / y < (⌊x / y⌋ : ℤ) + 1 := Int.lt_floor_add_one _
    have h2 : y * (x / y) < y * (((⌊x / y⌋ : ℤ) : ℝ) + 1) := by
      exact mul_lt_mul_of_pos_left h1 hy
    have h3 : y * (x / y) = x := by field_simp
    nlinarith

theorem rmod_of_mem {x y : ℝ} (hy : 0 < y) (h0 : 0 ≤ x) (h1 : x < y) :
    rmod x y = x := by
  unfold rmod
  have hfl : ⌊x / y⌋ = 0 := by
    rw [Int.floor_eq_zero_iff]
    constructor
    · exact div_nonneg h0 (le_of_lt hy)
    · rw [div_lt_one hy]; exact h1
  rw [hfl]
  simp

theorem pyRoundR_intCast (n : ℤ) : pyRoundR (n : ℝ) = n := by
  unfold pyRoundR
  rw [Int.floor_intCast, sub_self]
  norm_num

theorem pyRoundR_above_half {x : ℝ} (h : 1 / 2 < x - ⌊x⌋) :
    pyRoundR x = ⌊x⌋ + 1 := by
  unfold pyRoundR
  rw [if_neg (by linarith), if_pos h]

theorem pyRoundR_range {x : ℝ} (h0 : 0 ≤ x) (h1 : x < 360) :
    0 ≤ pyRoundR x ∧ pyRoundR x ≤ 360 := by
  have hf0 : (0 : ℤ) ≤ ⌊x⌋ := Int.floor_nonneg.mpr h0
  have hf1 : ⌊x⌋ < 360 := by
    have : ⌊x⌋ < ((360 : ℤ) : ℝ) ∨ True := Or.inr trivial
    have := Int.floor_lt.mpr (by exact_mod_cast h1 : x < ((360 : ℤ) : ℝ))
    exact this
  unfold pyRoundR
  split_ifs <;> constructor <;> omega

theorem pyRoundR_five_half : pyRoundR ((5 : ℝ) / 2) = 2 := by
  have hfl : ⌊(5 : ℝ) / 2⌋ = 2 := by
    rw [Int.floor_eq_iff]
    norm_num
  unfold pyRoundR
  rw [hfl]
  norm_num

theorem atan2_zero_pos {x : ℝ} (hx : 0 < x) : atan2 0 x = 0 := by
  unfold atan2
  rw [if_pos hx, zero_div, Real.arctan_zero]

theorem windSpeed_vzero {u : ℚ} (hu : 0 ≤ u) : windSpeed u 0 = (u : ℝ) := by
  unfold windSpeed
  push_cast
  rw [show ((0 : ℝ) ^ 2 : ℝ) = 0 by norm_num, add_zero,
    Real.sqrt_sq (by exact_mod_cast hu)]

theorem windDir_vzero {u : ℚ} (hu : 0 < u) : windDir u 0 = 270 := by
  unfold windDir
  push_cast
  rw [atan2_zero_pos (by exact_mod_cast hu), mul_zero, sub_zero]
  exact rmod_of_mem (by norm_num) (by norm_num) (by norm_num)

theorem arctan_twohundred_bounds :
    Real.pi / 2 - 1 / 200 < Real.arctan 200 ∧ Real.arctan 200 < Real.pi / 2 := by
  constructor
  · have hinv : Real.arctan ((200 : ℝ)⁻¹) = Real.pi / 2 - Real.arctan 200 :=
      Real.arctan_inv_of_pos (by norm_num)
    have hpos : 0 < Real.arctan ((200 : ℝ)⁻¹) := by
      have := Real.arctan_strictMono (show (0 : ℝ) < (200 : ℝ)⁻¹ by norm_num)
      rwa [Real.arctan_zero] at this
    have hlt : Real.arctan ((200 : ℝ)⁻¹) < Real.pi / 2 :=
      Real.arctan_lt_pi_div_two _
    have htan := Real.lt_tan hpos hlt
    rw [Real.tan_arctan] at htan
    have : Real.arctan ((200 : ℝ)⁻¹) < 1 / 200 := by
      rw [show ((200 : ℝ)⁻¹) = 1 / 200 by norm_num] at htan
      linarith
    linarith [hinv ▸ this]
  · exact Real.arctan_lt_pi_div_two _

theorem windDir_one_negtwohundred :
    359 + 1 / 2 < windDir 1 (-200) ∧ windDir 1 (-200) < 360 := by
  have hpi : 0 < Real.pi := Real.pi_pos
  have hpi3 : 3 < Real.pi := Real.pi_gt_three
  rcases arctan_twohundred_bounds with ⟨hA1, hA2⟩
  have hat : atan2 ((-200 : ℚ) : ℝ) ((1 : ℚ) : ℝ) = -Real.arctan 200 := by
    unfold atan2
    rw [if_pos (by norm_num : (0 : ℝ) < ((1 : ℚ) : ℝ))]
    push_cast
    rw [div_one, show ((-200 : ℝ)) = -(200 : ℝ) by norm_num, Real.arctan_neg]
  have hd : windDir 1 (-200) =
      rmod (270 + 180 / Real.pi * Real.arctan 200) 360 := by
    unfold windDir
    rw [hat]
    ring_nf
  have hup : 180 / Real.pi * Real.arctan 200 < 90 := by
    have h1 : 180 / Real.pi * Real.arctan 200 < 180 / Real.pi * (Real.pi / 2) :=
      mul_lt_mul_of_pos_left hA2 (by positivity)
    have h2 : 180 / Real.pi * (Real.pi / 2) = 90 := by
      field_simp
      norm_num
    linarith
  have hlo : 90 - 1 / 2 < 180 / Real.pi * Real.arctan 200 := by
    have h1 : 180 / Real.pi * (Real.pi / 2 - 1 / 200)
        < 180 / Real.pi * Real.arctan 200 :=
      mul_lt_mul_of_pos_left hA1 (by positivity)
    have h2 : 180 / Real.pi * (Real.pi / 2 - 1 / 200) = 90 - 9 / 10 / Real.pi := by
      field_simp
      ring
    have h3 : 9 / 10 / Real.pi < 1 / 2 := by
      rw [div_lt_iff₀ hpi]
      linarith
    linarith
  have hmem : rmod (270 + 180 / Real.pi * Real.arctan 200) 360
      = 270 + 180 / Real.pi * Real.arctan 200 :=
    rmod_of_mem (by norm_num) (by linarith) (by linarith)
  rw [hd, hmem]
  constructor <;> linarith

theorem pyRoundR_windDir_one_negtwohundred : pyRoundR (windDir 1 (-200)) = 360 := by
  rcases windDir_one_negtwohundred with ⟨h1, h2⟩
  have hfl : ⌊windDir 1 (-200)⌋ = 359 := by
    rw [Int.floor_eq_iff]
    constructor
    · push_cast; linarith
    · push_cast; linarith
  rw [pyRoundR_above_half (by rw [hfl]; push_cast; linarith), hfl]
  norm_num


/-! Helpers for the Kelvin-to-Celsius shift and for error-freedom of
the U/V pipeline. -/

theorem hasNaN_map_kelvin (p : List NpVal) :
    hasNaN (p.map kelvinToC) = hasNaN p := by
  induction p with
  | nil => rfl
  | cons v l ih =>
    cases v with
    | none => simp [hasNaN, kelvinToC]
    | some q =>
      simp [hasNaN, kelvinToC] at ih ⊢
      exact ih

theorem denan_map_kelvin {p : List NpVal} (h : hasNaN p = false) :
    denan (p.map kelvinToC) = (denan p).map fun q => q - 27315 / 100 := by
  induction p with
  | nil => rfl
  | cons v l ih =>
    cases v with
    | none => simp [hasNaN] at h
    | some q =>
      have hl : hasNaN l = false := by
        simp [hasNaN] at h ⊢
        exact h
      show (kelvinToC (some q)).getD 0 :: denan (l.map kelvinToC)
          = ((some q).getD 0 - 27315 / 100) :: (denan l).map fun q => q - 27315 / 100
      rw [ih hl]
      rfl

theorem reorder_map_shift (l : List ℚ) (c : ℚ) :
    codeReorder (l.map fun q => q - c) = (codeReorder l).map fun q => q - c := by
  simp [codeReorder, List.map_reverse]

theorem interp_shift (x c : ℚ) (xp fp : List ℚ) (hne : xp ≠ []) (hfne : fp ≠ []) :
    npInterpGo x (xp.zip (fp.map fun q => q - c)) = npInterpGo x (xp.zip fp) - c := by
  have hz : xp.zip (fp.map fun q => q - c)
      = (xp.zip fp).map fun p => (p.1, p.2 - c) := by
    rw [List.zip_map_right]
    rfl
  rw [hz]
  exact npInterpGo_shift x c (xp.zip fp) (zip_ne_nil hne hfne)

theorem uvPointQ_isOkE (hg ug vg : PLGrid) (i j : ℕ) (fl : ℚ)
    (hlu : ug.nlev = hg.nlev) (hlv : vg.nlev = hg.nlev) (hpos : 0 < hg.nlev) :
    isOkE (uvPointQ hg ug vg i j fl) = true := by
  by_cases hfl : hasNaN ((profileOf hg i j).map hgtToFL) = true
  · simp [uvPointQ, hfl, isOkE]
  · by_cases hu : hasNaN (profileOf ug i j) = true
    · simp [uvPointQ, hu, isOkE]
    · by_cases hv : hasNaN (profileOf vg i j) = true
      · simp [uvPointQ, hv, isOkE]
      · rw [uvPointQ_eval hg ug vg i j fl (by simpa using hfl) (by simpa using hu)
          (by simpa using hv) hlu hlv hpos]
        rfl

theorem uvCell_isOkE (hg ug vg : PLGrid) (i j : ℕ) (fl : ℚ)
    (hlu : ug.nlev = hg.nlev) (hlv : vg.nlev = hg.nlev) (hpos : 0 < hg.nlev) :
    isOkE (uvCell hg ug vg i j fl) = true := by
  rw [uvCell, isOkE_map]
  exact uvPointQ_isOkE hg ug vg i j fl hlu hlv hpos


/-! Further helpers: the decidable strict-decrease test, rounding
evaluations, and evaluation of a temperature-variant cell with a
southbound-free wind (`v = 0`, `u > 0`). -/

theorem strictDecrB_iff :
    ∀ (l : List ℚ), strictDecrB l = true ↔ List.Chain' (fun a b : ℚ => b < a) l
  | [] => by simp [strictDecrB]
  | [a] => by simp [strictDecrB]
  | a :: b :: l => by
    have ih := strictDecrB_iff (b :: l)
    rw [List.chain'_cons, ← ih]
    show ((decide (b < a)) && strictDecrB (b :: l)) = true ↔ _
    rw [Bool.and_eq_true, decide_eq_true_iff]

unseal Rat.add Rat.mul Rat.sub Rat.inv in
theorem pyRound_zero : pyRound 0 = 0 := by decide

theorem bpRound_some (u v t : ℚ) :
    bpRound (some (u, v, t)) =
      some (pyRound t, pyRoundR (windSpeed u v), pyRoundR (windDir u v)) := rfl

theorem pyRoundR_270 : pyRoundR (270 : ℝ) = 270 := by
  have h := pyRoundR_intCast 270
  have hc : (((270 : ℤ) : ℝ)) = (270 : ℝ) := by norm_num
  rw [hc] at h
  exact h

theorem bpCell_eval_uPos (hg ug vg tg : PLGrid) (i j : ℕ) (fl u : ℚ) (hu : 0 < u)
    (hq : bpPointQ hg ug vg tg i j fl = .ok (some (u, 0, 0))) :
    bpCell hg ug vg tg i j fl = .ok (some (0, pyRoundR ((u : ℝ)), 270)) := by
  unfold bpCell
  rw [hq]
  show Except.ok (bpRound (some (u, 0, 0))) = _
  rw [bpRound_some, pyRound_zero, windSpeed_vzero (le_of_lt hu), windDir_vzero hu,
    pyRoundR_270]

theorem reorder_fl_ne_nil (hg : PLGrid) (i j : ℕ) (hpos : 0 < hg.nlev) :
    codeReorder (denan ((profileOf hg i j).map hgtToFL)) ≠ [] := by
  apply reorder_denan_ne_nil
  intro hc
  have := congrArg List.length hc
  rw [List.length_map, length_profileOf] at this
  simp at this
  omega


/-! The claim theorems. -/

unseal Rat.add Rat.mul Rat.sub Rat.inv in
/-- Claim C1 (code bug, evaluated at the failing input): at the grid
point `(0, 0)` whose height profile contains NaN, the temperature
variant leaves every output field missing (`none`) at every target
flight level, and the neighbouring point `(0, 1)` is unaffected — but
the U/V variant's final `astype(int)` cast turns the NaN marker into
the ordinary integer `-2^63`, so the value it returns for the missing
point is not a missing-value marker (its output type holds only plain
integers). -/
theorem claim1_nan_marker_destroyed :
    (∀ fl : ℚ,
      uvCell gh1 gu1 gv1 0 0 fl = .ok (intCastOfNaN, intCastOfNaN) ∧
      bpCell gh1 gu1 gv1 gt1 0 0 fl = .ok none ∧
      uvCell gh1 gu1 gv1 0 1 fl = uvCell gh1c gu1 gv1 0 1 fl ∧
      uvCell gh1 gu1 gv1 0 1 fl = .ok (10, 10)) ∧
    intCastOfNaN = -(2 ^ 63) := by
  constructor
  · intro fl
    exact ⟨rfl, rfl, rfl, rfl⟩
  · rfl

unseal Rat.add Rat.mul Rat.sub Rat.inv in
/-- Claim C2 counterexample: with a `1 × 1` height grid and `2 × 2`
U/V grids (mismatched dimensions), `interpolate_uv_at_flight_levels`
does not fail at all — even with numpy's index-bounds error path
modelled it silently returns a complete result — so no `ShapeMismatch`
error is raised before interpolation. -/
theorem claim2_counterexample :
    gh2.rows ≠ gu2.rows ∧ gh2.cols ≠ gu2.cols ∧
    isOkE (uvInterpolateE gh2 gu2 gv2) = true := by
  refine ⟨by decide, by decide, by decide⟩

unseal Rat.add Rat.mul Rat.sub Rat.inv in
/-- Claim C2 (amended): the code contains no shape or level-set
pre-validation and no `ShapeMismatch` error; dimension mismatches
surface only during interpolation, if at all.  When the U and V grids
contain the height grid's 2D extent and agree with it on the level
count, resampling silently runs to completion over the height grid's
extent.  When the height grid is larger than the U/V grids, the
per-point profile read `u_3d[:, i, j]` raises an uncaught
`IndexError` part-way through the loop — after earlier points have
already been interpolated (cell `(0, 0)` below succeeds) — and the
whole call aborts, still without any `ShapeMismatch` and not before
interpolation begins. -/
theorem claim2_amended_no_validation :
    (∀ hg ug vg : PLGrid, ug.nlev = hg.nlev → vg.nlev = hg.nlev → 0 < hg.nlev →
      hg.rows ≤ ug.rows → hg.cols ≤ ug.cols → hg.rows ≤ vg.rows → hg.cols ≤ vg.cols →
      isOkE (uvInterpolateE hg ug vg) = true) ∧
    uvCellE ghB guS gvS 0 0 0 = .ok (10, 10) ∧
    isOkE (uvInterpolateE ghB guS gvS) = false := by
  refine ⟨?_, by decide, by decide⟩
  intro hg ug vg hlu hlv hpos hru hcu hrv hcv
  unfold uvInterpolateE
  apply mapME_isOkE
  intro fl _
  rw [isOkE_map]
  unfold uvLevelCellsE
  apply mapME_isOkE
  intro i hi
  apply mapME_isOkE
  intro j hj
  have hi' := List.mem_range.mp hi
  have hj' := List.mem_range.mp hj
  unfold uvCellE
  rw [isOkE_map]
  unfold uvPointE
  rw [if_pos ⟨hi', hj'⟩,
    if_pos ⟨lt_of_lt_of_le hi' hru, lt_of_lt_of_le hj' hcu⟩,
    if_pos ⟨lt_of_lt_of_le hi' hrv, lt_of_lt_of_le hj' hcv⟩]
  exact uvPointQ_isOkE hg ug vg i j fl hlu hlv hpos

unseal Rat.add Rat.mul Rat.sub Rat.inv in
/-- Witness for the amended claim C2: the `1 × 1` height grid lies
inside the `2 × 2` U/V grids, so the mismatched call completes. -/
theorem claim2_amended_witness :
    gu2.nlev = gh2.nlev ∧ gv2.nlev = gh2.nlev ∧ 0 < gh2.nlev ∧
    gh2.rows ≤ gu2.rows ∧ gh2.cols ≤ gu2.cols ∧
    gh2.rows ≤ gv2.rows ∧ gh2.cols ≤ gv2.cols ∧
    isOkE (uvInterpolateE gh2 gu2 gv2) = true :=
  ⟨rfl, rfl, by decide, by decide, by decide, by decide, by decide,
    claim2_amended_no_validation.1 gh2 gu2 gv2 rfl rfl (by decide)
      (by decide) (by decide) (by decide) (by decide)⟩

/-- Claim C7 counterexample: the code reorders a profile by the fixed
reversal `[::-1]`; on the input ordering `[50, 150, 250]` (already
increasing) the reordered flight-level profile is `[250, 150, 50]`,
which is not strictly increasing — so the code does not sort, and not
every input ordering yields an increasing profile before
interpolation. -/
theorem claim7_counterexample :
    codeReorder [(50 : ℚ), 150, 250] = [250, 150, 50] ∧
    ¬ strictIncr (codeReorder [(50 : ℚ), 150, 250]) := by
  constructor
  · rfl
  · intro h
    unfold strictIncr codeReorder at h
    rw [show ([(50 : ℚ), 150, 250].reverse) = [250, 150, 50] from rfl] at h
    rcases List.chain'_cons.mp h with ⟨h1, _⟩
    norm_num at h1

/-- Claim C7 (amended): the profile reordering applied before
interpolation is the fixed reversal, and the reordered flight-level
profile is strictly increasing precisely when the stored profile is
strictly decreasing (the top-down pressure-level ordering the source
assumes); no sorting is performed. -/
theorem claim7_amended_reversal (l : List ℚ) :
    strictIncr (codeReorder l) ↔ List.Chain' (fun a b : ℚ => b < a) l := by
  unfold strictIncr codeReorder
  exact List.chain'_reverse

/-- Claim C10: in the temperature variant, a NaN anywhere in the
temperature profile alone forces the whole output cell — temperature,
wind speed and wind direction — to stay missing at every target flight
level, even when the height, U and V profiles are complete. -/
theorem claim10_temp_nan_blanks_winds (hg ug vg tg : PLGrid) (i j : ℕ) (fl : ℚ)
    (hfl : hasNaN ((profileOf hg i j).map hgtToFL) = false)
    (hu : hasNaN (profileOf ug i j) = false)
    (hv : hasNaN (profileOf vg i j) = false)
    (ht : hasNaN ((profileOf tg i j).map kelvinToC) = true) :
    bpCell hg ug vg tg i j fl = .ok none := by
  unfold bpCell bpPointQ
  simp only [hfl, hu, hv, ht, Bool.or_true, Bool.or_false, Bool.false_or, if_true]
  rfl

/-- Witness for claim C10: a complete height/U/V column with an
all-NaN temperature column yields a fully missing output cell. -/
theorem claim10_witness :
    hasNaN ((profileOf gh2 0 0).map hgtToFL) = false ∧
    hasNaN (profileOf gone 0 0) = false ∧
    hasNaN (profileOf gzero 0 0) = false ∧
    hasNaN ((profileOf gnan 0 0).map kelvinToC) = true ∧
    bpCell gh2 gone gzero gnan 0 0 150 = .ok none :=
  ⟨by decide, by decide, by decide, by decide,
    claim10_temp_nan_blanks_winds gh2 gone gzero gnan 0 0 150
      (by decide) (by decide) (by decide) (by decide)⟩


unseal Rat.add Rat.mul Rat.sub Rat.inv in
/-- Claim C3 counterexample: output values are not rounded to nearest
with ties away from zero.  The U/V variant truncates: a constant
profile of `1.9` yields the output `1`, while round-half-away-from-zero
gives `2`.  The temperature variant uses Python `round` (ties to
even): a derived speed of exactly `2.5` is stored as `2`, while
round-half-away-from-zero gives `3`. -/
theorem claim3_counterexample :
    uvCell gh2 gw19 gw19 0 0 0 = .ok (1, 1) ∧ specRoundHalfAway (19 / 10) = 2 ∧
    (1 : ℤ) ≠ 2 ∧
    bpCell gh2 gw25 gzero gK0 0 0 0 = .ok (some (0, 2, 270)) ∧
    specRoundHalfAway (5 / 2) = 3 ∧ (2 : ℤ) ≠ 3 := by
  refine ⟨by decide, by decide, by decide, ?_, by decide, by decide⟩
  have hq : bpPointQ gh2 gw25 gzero gK0 0 0 0 = .ok (some (5 / 2, 0, 0)) := by decide
  have := bpCell_eval_uPos gh2 gw25 gzero gK0 0 0 0 (5 / 2) (by norm_num) hq
  rw [this]
  have hc : (((5 / 2 : ℚ) : ℝ)) = (5 : ℝ) / 2 := by norm_num
  rw [hc, pyRoundR_five_half]

theorem pyRound_props (x : ℚ) :
    |x - (pyRound x : ℚ)| ≤ 1 / 2 ∧
      (|x - (pyRound x : ℚ)| = 1 / 2 → pyRound x % 2 = 0) := by
  have hfl : ((⌊x⌋ : ℤ) : ℚ) ≤ x := Int.floor_le x
  have hfu : x < ((⌊x⌋ : ℤ) : ℚ) + 1 := Int.lt_floor_add_one x
  unfold pyRound
  split_ifs with h1 h2 h3
  · refine ⟨by rw [abs_le]; constructor <;> linarith, fun habs => ?_⟩
    exfalso
    rw [abs_eq (by norm_num : (0 : ℚ) ≤ 1 / 2)] at habs
    rcases habs with he | he <;> linarith
  · refine ⟨by rw [abs_le]; push_cast; constructor <;> linarith, fun habs => ?_⟩
    exfalso
    rw [abs_eq (by norm_num : (0 : ℚ) ≤ 1 / 2)] at habs
    push_cast at habs
    rcases habs with he | he <;> linarith
  · have hx : x - ((⌊x⌋ : ℤ) : ℚ) = 1 / 2 := le_antisymm (not_lt.mp h2) (not_lt.mp h1)
    exact ⟨by rw [abs_le]; constructor <;> linarith, fun _ => h3⟩
  · have hx : x - ((⌊x⌋ : ℤ) : ℚ) = 1 / 2 := le_antisymm (not_lt.mp h2) (not_lt.mp h1)
    refine ⟨by rw [abs_le]; push_cast; constructor <;> linarith, fun _ => ?_⟩
    omega

theorem qTrunc_props (x : ℚ) :
    |((qTrunc x : ℤ) : ℚ)| ≤ |x| ∧ |x - ((qTrunc x : ℤ) : ℚ)| < 1 := by
  unfold qTrunc
  split_ifs with h
  · have h1 : ((⌊x⌋ : ℤ) : ℚ) ≤ x := Int.floor_le x
    have h2 : x < ((⌊x⌋ : ℤ) : ℚ) + 1 := Int.lt_floor_add_one x
    have h3 : (0 : ℚ) ≤ ((⌊x⌋ : ℤ) : ℚ) := by exact_mod_cast Int.floor_nonneg.mpr h
    constructor
    · rw [abs_of_nonneg h3, abs_of_nonneg h]
      exact h1
    · rw [abs_of_nonneg (by linarith)]
      linarith
  · push_neg at h
    have h1 : x ≤ ((⌈x⌉ : ℤ) : ℚ) := Int.le_ceil x
    have h2 : ((⌈x⌉ : ℤ) : ℚ) < x + 1 := Int.ceil_lt_add_one x
    have h3 : ((⌈x⌉ : ℤ) : ℚ) ≤ 0 := by
      exact_mod_cast Int.ceil_le.mpr (by exact_mod_cast le_of_lt h)
    constructor
    · rw [abs_of_nonpos h3, abs_of_neg h]
      linarith
    · rw [abs_of_nonpos (by linarith)]
      linarith

/-- Claim C3 (amended): the rounding actually applied is Python
`round` — nearest integer with ties to even — in the temperature
variant (via `int(round(...))` on temperature, speed and direction),
and truncation toward zero — `astype(int)`, no rounding at all — in
the U/V variant. -/
theorem claim3_amended_rounding :
    (∀ x : ℚ, |x - (pyRound x : ℚ)| ≤ 1 / 2 ∧
      (|x - (pyRound x : ℚ)| = 1 / 2 → pyRound x % 2 = 0)) ∧
    (∀ x : ℚ, |((qTrunc x : ℤ) : ℚ)| ≤ |x| ∧ |x - ((qTrunc x : ℤ) : ℚ)| < 1) ∧
    (∀ u v t : ℚ, bpRound (some (u, v, t)) =
      some (pyRound t, pyRoundR (windSpeed u v), pyRoundR (windDir u v))) :=
  ⟨pyRound_props, qTrunc_props, fun _ _ _ => rfl⟩

unseal Rat.add Rat.mul Rat.sub Rat.inv in
/-- Witness for the amended claim C3: the tie `x = 5/2` is rounded to
the even integer `2`, and the truncation bound holds at `1.9`. -/
theorem claim3_amended_witness :
    |(5 : ℚ) / 2 - ((pyRound (5 / 2) : ℤ) : ℚ)| ≤ 1 / 2 ∧
    pyRound (5 / 2) % 2 = 0 ∧
    |((qTrunc (19 / 10) : ℤ) : ℚ)| ≤ |(19 : ℚ) / 10| :=
  ⟨(claim3_amended_rounding.1 (5 / 2)).1,
   (claim3_amended_rounding.1 (5 / 2)).2 (by decide),
   (claim3_amended_rounding.2.1 (19 / 10)).1⟩

unseal Rat.add Rat.mul Rat.sub Rat.inv in
/-- Claim C4 counterexample: on the profile with flight levels
`[50, 150, 250]`, U values `[10, 20, 30]` and `V = 0`, requesting
flight level 150 yields a stored wind direction of `270` (wind from
the west), not `180` as the claim states. -/
theorem claim4_counterexample :
    bpCell gh4 gu4 gv4 gt4 0 0 150 = .ok (some (0, 20, 270)) ∧
    (270 : ℤ) ≠ 180 := by
  refine ⟨?_, by decide⟩
  have hq : bpPointQ gh4 gu4 gv4 gt4 0 0 150 = .ok (some (20, 0, 0)) := by decide
  have := bpCell_eval_uPos gh4 gu4 gv4 gt4 0 0 150 20 (by norm_num) hq
  rw [this]
  have hc : (((20 : ℚ) : ℝ)) = ((20 : ℤ) : ℝ) := by norm_num
  rw [hc, pyRoundR_intCast]

unseal Rat.add Rat.mul Rat.sub Rat.inv in
/-- Claim C4 (amended): on that profile, requesting flight level 150
yields interpolated `U = 20`, derived speed `20` and derived direction
`270`; requesting flight level 0 clamps to `U = 10` with no
extrapolation below flight level 50. -/
theorem claim4_amended_scenario :
    uvPointQ gh4 gu4 gv4 0 0 150 = .ok (some (20, 0)) ∧
    uvCell gh4 gu4 gv4 0 0 150 = .ok (20, 0) ∧
    uvPointQ gh4 gu4 gv4 0 0 0 = .ok (some (10, 0)) ∧
    uvCell gh4 gu4 gv4 0 0 0 = .ok (10, 0) ∧
    bpCell gh4 gu4 gv4 gt4 0 0 150 = .ok (some (0, 20, 270)) := by
  refine ⟨by decide, by decide, by decide, by decide, ?_⟩
  have hq : bpPointQ gh4 gu4 gv4 gt4 0 0 150 = .ok (some (20, 0, 0)) := by decide
  have := bpCell_eval_uPos gh4 gu4 gv4 gt4 0 0 150 20 (by norm_num) hq
  rw [this]
  have hc : (((20 : ℚ) : ℝ)) = ((20 : ℤ) : ℝ) := by norm_num
  rw [hc, pyRoundR_intCast]


unseal Rat.add Rat.mul Rat.sub Rat.inv in
/-- Claim C5 counterexample: at a complete profile with constant
`u = 1`, `v = -200`, the derived direction is strictly between 359.5
and 360, so the stored (rounded) wind-direction output is `360`,
which does not lie in the claimed interval `[0, 360)`. -/
theorem claim5_counterexample :
    (bpCell gh2 gone gm200 gK0 0 0 0).map (Option.map fun p => p.2.2) =
      .ok (some 360) ∧
    ¬ ((360 : ℤ) < 360) := by
  constructor
  · have hq : bpPointQ gh2 gone gm200 gK0 0 0 0 = .ok (some (1, -200, 0)) := by
      decide
    unfold bpCell
    rw [hq]
    show Except.ok ((bpRound (some (1, -200, 0))).map fun p => p.2.2) = _
    rw [bpRound_some]
    show Except.ok (some (pyRoundR (windDir 1 (-200)))) = _
    rw [pyRoundR_windDir_one_negtwohundred]
  · decide

/-- Claim C5 (amended): before rounding, the derived wind direction is
exactly `(270 - atan2(v, u) in degrees) mod 360` and lies in
`[0, 360)`; the rounded integer output lies in `[0, 360]` and can
equal 360. -/
theorem claim5_amended_direction (u v : ℚ) :
    windDir u v = specWindDir u v ∧
    0 ≤ windDir u v ∧ windDir u v < 360 ∧
    0 ≤ pyRoundR (windDir u v) ∧ pyRoundR (windDir u v) ≤ 360 := by
  have hm := rmod_nonneg_lt (270 - 180 / Real.pi * atan2 ((v : ℚ) : ℝ) ((u : ℚ) : ℝ))
    (show (0 : ℝ) < 360 by norm_num)
  have h1 : 0 ≤ windDir u v := hm.1
  have h2 : windDir u v < 360 := hm.2
  have h3 := pyRoundR_range h1 h2
  exact ⟨rfl, h1, h2, h3.1, h3.2⟩

/-- Claim C6: for a complete profile stored in strictly decreasing
flight-level order (the ordering the reversal assumes), a target
flight level at or below the lowest sampled flight level yields
exactly the boundary (lowest-level) value of each interpolated
quantity, and a target at or above the highest sampled flight level
yields the highest-level value — never an extrapolated value and never
the missing marker — in both pipeline variants. -/
theorem claim6_boundary_clamp (hg ug vg tg : PLGrid) (i j : ℕ) (t : ℚ)
    (hfl : hasNaN ((profileOf hg i j).map hgtToFL) = false)
    (hu : hasNaN (profileOf ug i j) = false)
    (hv : hasNaN (profileOf vg i j) = false)
    (ht : hasNaN ((profileOf tg i j).map kelvinToC) = false)
    (hlu : ug.nlev = hg.nlev) (hlv : vg.nlev = hg.nlev) (hlt : tg.nlev = hg.nlev)
    (hpos : 0 < hg.nlev)
    (hsort : List.Chain' (fun a b : ℚ => b < a)
      (denan ((profileOf hg i j).map hgtToFL))) :
    (t ≤ (codeReorder (denan ((profileOf hg i j).map hgtToFL))).headD 0 →
      uvPointQ hg ug vg i j t = .ok (some
        ((codeReorder (denan (profileOf ug i j))).headD 0,
         (codeReorder (denan (profileOf vg i j))).headD 0)) ∧
      bpPointQ hg ug vg tg i j t = .ok (some
        ((codeReorder (denan (profileOf ug i j))).headD 0,
         (codeReorder (denan (profileOf vg i j))).headD 0,
         (codeReorder (denan ((profileOf tg i j).map kelvinToC))).headD 0))) ∧
    ((codeReorder (denan ((profileOf hg i j).map hgtToFL))).getLastD 0 ≤ t →
      uvPointQ hg ug vg i j t = .ok (some
        ((codeReorder (denan (profileOf ug i j))).getLastD 0,
         (codeReorder (denan (profileOf vg i j))).getLastD 0)) ∧
      bpPointQ hg ug vg tg i j t = .ok (some
        ((codeReorder (denan (profileOf ug i j))).getLastD 0,
         (codeReorder (denan (profileOf vg i j))).getLastD 0,
         (codeReorder (denan ((profileOf tg i j).map kelvinToC))).getLastD 0))) := by
  have hchain : List.Chain' (· < ·)
      (codeReorder (denan ((profileOf hg i j).map hgtToFL))) := by
    unfold codeReorder
    exact List.chain'_reverse.mpr hsort
  have hne := reorder_fl_ne_nil hg i j hpos
  have hlxu : (codeReorder (denan ((profileOf hg i j).map hgtToFL))).length
      = (codeReorder (denan (profileOf ug i j))).length := by
    rw [length_reorder_denan, length_reorder_denan, List.length_map,
      length_profileOf, length_profileOf, hlu]
  have hlxv : (codeReorder (denan ((profileOf hg i j).map hgtToFL))).length
      = (codeReorder (denan (profileOf vg i j))).length := by
    rw [length_reorder_denan, length_reorder_denan, List.length_map,
      length_profileOf, length_profileOf, hlv]
  have hlxt : (codeReorder (denan ((profileOf hg i j).map hgtToFL))).length
      = (codeReorder (denan ((profileOf tg i j).map kelvinToC))).length := by
    rw [length_reorder_denan, length_reorder_denan, List.length_map,
      List.length_map, length_profileOf, length_profileOf, hlt]
  constructor
  · intro hb
    constructor
    · rw [uvPointQ_eval hg ug vg i j t hfl hu hv hlu hlv hpos,
        interpPair_left t _ _ hlxu hne hchain hb,
        interpPair_left t _ _ hlxv hne hchain hb]
    · rw [bpPointQ_eval hg ug vg tg i j t hfl hu hv ht hlu hlv hlt hpos,
        interpPair_left t _ _ hlxu hne hchain hb,
        interpPair_left t _ _ hlxv hne hchain hb,
        interpPair_left t _ _ hlxt hne hchain hb]
  · intro ha
    constructor
    · rw [uvPointQ_eval hg ug vg i j t hfl hu hv hlu hlv hpos,
        interpPair_right t _ _ hlxu hne hchain ha,
        interpPair_right t _ _ hlxv hne hchain ha]
    · rw [bpPointQ_eval hg ug vg tg i j t hfl hu hv ht hlu hlv hlt hpos,
        interpPair_right t _ _ hlxu hne hchain ha,
        interpPair_right t _ _ hlxv hne hchain ha,
        interpPair_right t _ _ hlxt hne hchain ha]

unseal Rat.add Rat.mul Rat.sub Rat.inv in
/-- Witness for claim C6 on the three-level profile with flight levels
`250, 150, 50` in storage order: target 0 clamps to the lowest-level
U value 10, target 500 clamps to the highest-level U value 30. -/
theorem claim6_witness :
    hasNaN ((profileOf gh4 0 0).map hgtToFL) = false ∧
    List.Chain' (fun a b : ℚ => b < a) (denan ((profileOf gh4 0 0).map hgtToFL)) ∧
    (0 : ℚ) ≤ (codeReorder (denan ((profileOf gh4 0 0).map hgtToFL))).headD 0 ∧
    (codeReorder (denan ((profileOf gh4 0 0).map hgtToFL))).getLastD 0 ≤ 500 ∧
    uvPointQ gh4 gu4 gv4 0 0 0 = .ok (some (10, 0)) ∧
    uvPointQ gh4 gu4 gv4 0 0 500 = .ok (some (30, 0)) := by
  have hch : List.Chain' (fun a b : ℚ => b < a)
      (denan ((profileOf gh4 0 0).map hgtToFL)) :=
    (strictDecrB_iff _).mp (by decide)
  refine ⟨by decide, hch, by decide, by decide, ?_, ?_⟩
  · have h := ((claim6_boundary_clamp gh4 gu4 gv4 gt4 0 0 0 (by decide) (by decide)
      (by decide) (by decide) rfl rfl rfl (by decide) hch).1 (by decide)).1
    exact h.trans (by decide)
  · have h := ((claim6_boundary_clamp gh4 gu4 gv4 gt4 0 0 500 (by decide) (by decide)
      (by decide) (by decide) rfl rfl rfl (by decide) hch).2 (by decide)).1
    exact h.trans (by decide)


unseal Rat.add Rat.mul Rat.sub Rat.inv in
/-- Claim C8 counterexample: the U/V variant's per-level result maps
exactly the names `u` and `v` — there are no `speed` or `dir` fields —
so the result does not map the claimed name set. -/
theorem claim8_counterexample :
    ((okD (uvInterpolate gh2 gone gzero) []).headD (0, [])).2.map Prod.fst
      = ["u", "v"] ∧
    "speed" ∉ (["u", "v"] : List String) ∧
    "dir" ∉ (["u", "v"] : List String) := by
  refine ⟨by decide, by decide, by decide⟩

/-- Claim C8 (amended): per target flight level the U/V variant's
result maps exactly `u` and `v` to `rows × cols` arrays, and the
temperature variant produces exactly the per-level fields `Temp`,
`Dir`, `Spd` (its CSV outputs) as `rows × cols` arrays; neither
variant produces all of `u`, `v`, `speed`, `dir`. -/
theorem claim8_amended_fields (hg ug vg tg : PLGrid) (fl : ℚ)
    (out : List (ℤ × List (String × List (List ℤ))))
    (fields : List (String × List (List (Option ℤ)))) :
    (uvInterpolate hg ug vg = .ok out →
      ∀ e ∈ out, e.2.map Prod.fst = ["u", "v"] ∧
        ∀ f ∈ e.2, f.2.length = hg.rows ∧ ∀ r ∈ f.2, r.length = hg.cols) ∧
    (bpLevelOut hg ug vg tg fl = .ok fields →
      fields.map Prod.fst = ["Temp", "Dir", "Spd"] ∧
        ∀ f ∈ fields, f.2.length = hg.rows ∧ ∀ r ∈ f.2, r.length = hg.cols) := by
  constructor
  · intro hok e he
    obtain ⟨fl', _, hfe⟩ := mapME_ok_mem hok e he
    cases hcell : uvLevelCells hg ug vg fl' with
    | error err =>
      rw [hcell] at hfe
      exact absurd hfe (by simp [Except.map])
    | ok cells =>
      rw [hcell] at hfe
      simp only [Except.map, Except.ok.injEq] at hfe
      have hcl : cells.length = hg.rows := by
        have := mapME_ok_length hcell
        simpa using this
      have hrow : ∀ r ∈ cells, r.length = hg.cols := by
        intro r hr
        obtain ⟨i, _, hri⟩ := mapME_ok_mem hcell r hr
        have := mapME_ok_length hri
        simpa using this
      rw [← hfe]
      refine ⟨rfl, ?_⟩
      intro f hf
      rcases (by simpa using hf :
          f = ("u", cells.map fun row => row.map Prod.fst) ∨
          f = ("v", cells.map fun row => row.map Prod.snd)) with hfu | hfv
      · rw [hfu]
        refine ⟨by rw [List.length_map, hcl], ?_⟩
        intro r hr
        obtain ⟨row, hrow', hrr⟩ := List.mem_map.mp hr
        rw [← hrr, List.length_map]
        exact hrow row hrow'
      · rw [hfv]
        refine ⟨by rw [List.length_map, hcl], ?_⟩
        intro r hr
        obtain ⟨row, hrow', hrr⟩ := List.mem_map.mp hr
        rw [← hrr, List.length_map]
        exact hrow row hrow'
  · intro hok
    cases hcell : bpCells hg ug vg tg fl with
    | error err =>
      rw [bpLevelOut, hcell] at hok
      exact absurd hok (by simp [Except.map])
    | ok cells =>
      rw [bpLevelOut, hcell] at hok
      simp only [Except.map, Except.ok.injEq] at hok
      have hcl : cells.length = hg.rows := by
        have := mapME_ok_length hcell
        simpa using this
      have hrow : ∀ r ∈ cells, r.length = hg.cols := by
        intro r hr
        obtain ⟨i, _, hri⟩ := mapME_ok_mem hcell r hr
        have := mapME_ok_length hri
        simpa using this
      rw [← hok]
      refine ⟨rfl, ?_⟩
      intro f hf
      rcases (by simpa using hf :
          f = ("Temp", cells.map fun row => row.map (Option.map fun p => p.1)) ∨
          f = ("Dir", cells.map fun row => row.map (Option.map fun p => p.2.2)) ∨
          f = ("Spd", cells.map fun row => row.map (Option.map fun p => p.2.1)))
          with hft | hft | hft <;>
        (rw [hft]
         refine ⟨by rw [List.length_map, hcl], ?_⟩
         intro r hr
         obtain ⟨row, hrow', hrr⟩ := List.mem_map.mp hr
         rw [← hrr, List.length_map]
         exact hrow row hrow')

unseal Rat.add Rat.mul Rat.sub Rat.inv in
/-- Witness for the amended claim C8 at the all-NaN `1 × 1` grids. -/
theorem claim8_amended_witness :
    uvInterpolate gnan gnan gnan = .ok c8uvout ∧
    bpLevelOut gnan gnan gnan gnan 0 = .ok c8bpout ∧
    (∀ e ∈ c8uvout, e.2.map Prod.fst = ["u", "v"]) ∧
    c8bpout.map Prod.fst = ["Temp", "Dir", "Spd"] := by
  have huv : uvInterpolate gnan gnan gnan = .ok c8uvout := by decide
  have hbp : bpLevelOut gnan gnan gnan gnan 0 = .ok c8bpout := rfl
  refine ⟨huv, hbp, ?_, ?_⟩
  · intro e he
    exact (((claim8_amended_fields gnan gnan gnan gnan 0 c8uvout c8bpout).1 huv)
      e he).1
  · exact (((claim8_amended_fields gnan gnan gnan gnan 0 c8uvout c8bpout).2 hbp)).1

/-- Claim C9: the temperature variant subtracts 273.15 from the whole
temperature grid before interpolation, so at every complete grid point
and every target flight level the interpolated temperature equals the
interpolation of the raw Kelvin profile minus 273.15 — the output is
in degrees Celsius. -/
theorem claim9_kelvin_to_celsius (hg ug vg tg : PLGrid) (i j : ℕ) (fl : ℚ)
    (hfl : hasNaN ((profileOf hg i j).map hgtToFL) = false)
    (hu : hasNaN (profileOf ug i j) = false)
    (hv : hasNaN (profileOf vg i j) = false)
    (ht : hasNaN (profileOf tg i j) = false)
    (hlu : ug.nlev = hg.nlev) (hlv : vg.nlev = hg.nlev) (hlt : tg.nlev = hg.nlev)
    (hpos : 0 < hg.nlev) :
    (bpPointQ hg ug vg tg i j fl).map (Option.map fun p => p.2.2) =
      .ok (some (npInterpGo fl
        ((codeReorder (denan ((profileOf hg i j).map hgtToFL))).zip
          (codeReorder (denan (profileOf tg i j)))) - 27315 / 100)) := by
  have ht' : hasNaN ((profileOf tg i j).map kelvinToC) = false := by
    rw [hasNaN_map_kelvin]
    exact ht
  rw [bpPointQ_eval hg ug vg tg i j fl hfl hu hv ht' hlu hlv hlt hpos]
  have hshift : codeReorder (denan ((profileOf tg i j).map kelvinToC))
      = (codeReorder (denan (profileOf tg i j))).map fun q => q - 27315 / 100 := by
    rw [denan_map_kelvin ht, reorder_map_shift]
  rw [hshift]
  have hne := reorder_fl_ne_nil hg i j hpos
  have hfne : codeReorder (denan (profileOf tg i j)) ≠ [] := by
    apply reorder_denan_ne_nil
    exact profileOf_ne_nil i j (by omega)
  rw [interp_shift fl (27315 / 100) _ _ hne hfne]
  rfl

unseal Rat.add Rat.mul Rat.sub Rat.inv in
/-- Witness for claim C9: a constant 273.15 K profile interpolates to
0 °C at the concrete three-level grid point. -/
theorem claim9_witness :
    hasNaN (profileOf gt4 0 0) = false ∧
    (bpPointQ gh4 gu4 gv4 gt4 0 0 150).map (Option.map fun p => p.2.2) =
      .ok (some 0) := by
  refine ⟨by decide, ?_⟩
  have h := claim9_kelvin_to_celsius gh4 gu4 gv4 gt4 0 0 150 (by decide) (by decide)
    (by decide) (by decide) rfl rfl rfl (by decide)
  exact h.trans (by decide)

end Gridded
